import Mathlib

/-!
Verification development for the llm-benchmark repository.

The repository benchmarks LLMs on code-editing tasks: an orchestrator
snapshots a sandbox target file, produces an artifact (one prompt/response
cycle, or an agent tool loop), runs three validators (compilation,
structural patterns, naming conventions), computes a weighted score and
restores the sandbox.  The Python modules are embedded shallowly below:

* `Tools`           — src/agent/common/tools.py (sandbox tool factory)
* `Validator`       — src/validator.py (AST-strategy validators)
* `BugfixValidator` — src/agent/ts_bugfix/validator.py
* `TypedEmitsValidator` — src/refactoring/typed_emits_composable/validator.py
* `VeeValidator`    — src/creation/veevalidate_zod_form/validator.py
* `OllamaClient`    — src/common/ollama_client.py
* `AgentClient`     — src/agent/common/agent_client.py
* `RefactoringRunner` / `CreationRunner` / `AgentRunner` — the three
  test_runner.py orchestrators.

Python floats are modelled as rationals (`Rat`); every score reachable in
the sources is an exact multiple of 1/10, so no rounding subtleties are
lost.  External effects (the Ollama backend, the node parser process, the
npm compiler process, the agent loop, wall-clock time) are modelled as
explicit environment values: a run is a pure function of the fixture and
of the outcomes of its external calls, quantifying over all backend
behaviours.  Exceptions are modelled with `Except`.
-/

namespace LLMBench

/-! ## Path and filesystem model (src/agent/common/tools.py)

A candidate path string, as handed to a sandbox tool, is parsed into an
absolute-flag plus components (pathlib drops empty components produced by
duplicate or leading slashes).  `Path.resolve()` is lexical resolution of
`.` and `..` (symlinks are outside the model); `..` at the filesystem
root stays at the root, as in POSIX. -/

structure CandPath where
  absolute : Bool
  comps : List String
deriving DecidableEq, Repr

/-- Source: `str.split("/")`: split a character list at every slash, keeping empty
groups (they are filtered below, as pathlib does). -/
def splitSlash : List Char → List (List Char)
  | [] => [[]]
  | c :: t =>
    if c = '/' then [] :: splitSlash t
    else
      match splitSlash t with
      | [] => [[c]]
      | g :: gs => (c :: g) :: gs

/-- Split a raw path string the way pathlib does: leading slash means
absolute, empty components (from duplicate slashes) are dropped.  `.` and
`..` components are kept; `resolveComps` handles them. -/
def parsePath (s : String) : CandPath :=
  { absolute :=
      match s.toList with
      | c :: _ => c = '/'
      | [] => false
    comps := ((splitSlash s.toList).map (fun g => String.mk g)).filter (fun c => c ≠ "") }

/-- Lexical `Path.resolve()`: drop `.`, let `..` remove the previous
component (staying at the filesystem root when there is none). -/
def resolveComps (cs : List String) : List String :=
  cs.foldl (fun acc c =>
    if c = "." then acc
    else if c = ".." then acc.dropLast
    else acc ++ [c]) []

/-- Source: `target_project / relative_path`: pathlib discards the left operand
entirely when the right operand is absolute. -/
def joinPath (root : List String) (p : CandPath) : List String :=
  if p.absolute then p.comps else root ++ p.comps

/-- Source: `_safe_resolve` of tools.py: resolve the candidate against the (already
resolved) project root; `full.relative_to(resolved_root)` raises ValueError
exactly when the root is not an ancestor-or-equal of the resolved path,
which the tools turn into an error string. -/
def safeResolve (root : List String) (p : CandPath) : Option (List String) :=
  let full := resolveComps (joinPath root p)
  if root <+: full then some full else none

/-- The sandbox filesystem: a finite map from absolute paths (component
lists) to file contents.  Every entry is a regular file; a directory
exists iff some file lies strictly below it. -/
abbrev FS := List (List String × String)

def fsLookup (fs : FS) (p : List String) : Option String :=
  match fs.find? (fun e => e.1 = p) with
  | some e => some e.2
  | none => none

def fsWrite (fs : FS) (p : List String) (c : String) : FS :=
  (p, c) :: fs.filter (fun e => e.1 ≠ p)

/-- I/O actually performed by a tool call on resolved paths. -/
inductive FSEvent where
  | readF (p : List String)
  | writeF (p : List String)
  | listF (p : List String)
deriving DecidableEq, Repr

/-- Result of one sandbox tool call: the string handed back to the model,
the filesystem afterwards, and the I/O events performed. -/
structure ToolOut where
  output : String
  fs : FS
  events : List FSEvent
deriving DecidableEq, Repr

/-- Source: `s` is an error result in the sense of the tools contract: it starts
with the literal `ERROR:`. -/
def IsErrorString (s : String) : Prop := ∃ t, s = "ERROR:" ++ t

namespace Tools

/-- Message fragments of tools.py are assembled by concatenation (the
source uses f-strings; the surrounding quotes of the interpolated path are
elided here). -/
def errOutside (path : String) : String :=
  "ERROR: Path " ++ path ++ " is outside the project directory."

def errNotFound (path : String) : String :=
  "ERROR: File not found: " ++ path

/-- Insertion sort on strings, standing in for Python `sorted`. -/
def insertSorted (s : String) : List String → List String
  | [] => [s]
  | t :: ts => if s ≤ t then s :: t :: ts else t :: insertSorted s ts

def sortStrings (l : List String) : List String := l.foldr insertSorted []

def errNotPermitted (path : String) (allowed : List String) : String :=
  "ERROR: Writing to " ++ path ++ " is not permitted. Allowed: "
    ++ toString (sortStrings allowed.dedup)

def errNotDirectory (directory : String) : String :=
  "ERROR: " ++ directory ++ " is not a directory."

/-- Source: `read_file(path)`: resolve inside the root (escape ⇒ ValueError ⇒
error string before any I/O), then read; a missing file is the
FileNotFoundError branch. -/
def read_file (root : List String) (fs : FS) (path : String) : ToolOut :=
  match safeResolve root (parsePath path) with
  | none => ⟨errOutside path, fs, []⟩
  | some full =>
    match fsLookup fs full with
    | some content => ⟨content, fs, [.readF full]⟩
    | none => ⟨errNotFound path, fs, []⟩

/-- Source: `write_file(path, content)`: the allow-list test compares the ORIGINAL
path string (set membership) before any path resolution; only then is the
path resolved, with the same escape guard; parent directories are implied
by the file-map model. -/
def write_file (root : List String) (allowed : List String) (fs : FS)
    (path : String) (content : String) : ToolOut :=
  if path ∈ allowed then
    match safeResolve root (parsePath path) with
    | some full => ⟨"OK", fsWrite fs full content, [.writeF full]⟩
    | none => ⟨errOutside path, fs, []⟩
  else
    ⟨errNotPermitted path allowed, fs, []⟩

/-- Source: `list_files(directory)`: resolve with the same escape guard, require a
directory (some file strictly below), then list every file below it —
excluding any path with a `node_modules` or `.git` segment — relative to
the project root, sorted and newline-joined. -/
def list_files (root : List String) (fs : FS) (directory : String) : ToolOut :=
  match safeResolve root (parsePath directory) with
  | none => ⟨errOutside directory, fs, []⟩
  | some full =>
    if fs.any (fun e => full.isPrefixOf e.1 && full ≠ e.1) then
      let entries := sortStrings
        (((fs.filter (fun e => full.isPrefixOf e.1 && full ≠ e.1
            && !(e.1.contains "node_modules") && !(e.1.contains ".git"))).map
          (fun e => String.intercalate "/" (e.1.drop root.length))))
      ⟨if entries = [] then "(empty)" else String.intercalate "\n" entries,
        fs, [.listF full]⟩
    else
      ⟨errNotDirectory directory, fs, []⟩

end Tools

/-! ## Regex scanners

The validators use a handful of fixed `re` patterns.  They are embedded as
character-level scanners with the exact Python semantics for these
patterns: `re.findall` scans left to right, returns non-overlapping
matches and resumes after each match; `\s` is the ASCII whitespace class;
`\b` holds where a word character (`[A-Za-z0-9_]`) meets a non-word
character or the string edge; greedy `\s+`/`\s*`/`[a-zA-Z0-9]*` followed
by a character they cannot match never needs backtracking. -/

/-- Python `\s` (ASCII). -/
def pySpace (c : Char) : Bool :=
  c = ' ' || c = '\t' || c = '\n' || c = '\r' || c = '\x0b' || c = '\x0c'

/-- Python `\w` (ASCII). -/
def isWordChar (c : Char) : Bool := c.isAlpha || c.isDigit || c = '_'

/-- Match a literal at the head of the input, returning the rest. -/
def stripLit : List Char → List Char → Option (List Char)
  | [], cs => some cs
  | _ :: _, [] => none
  | l :: ls, c :: cs => if l = c then stripLit ls cs else none

theorem stripLit_length_le (lit : List Char) :
    ∀ cs rest, stripLit lit cs = some rest → rest.length ≤ cs.length := by
  induction lit with
  | nil => intro cs rest h; cases h; exact Nat.le_refl _
  | cons l ls ih =>
    intro cs rest h
    cases cs with
    | nil => cases h
    | cons c t =>
      by_cases hc : l = c
      · simp only [stripLit, if_pos hc] at h
        exact Nat.le_succ_of_le (ih t rest h)
      · simp only [stripLit, if_neg hc] at h
        exact Option.noConfusion h

/-- Try the regex `interface\s+([a-zA-Z][a-zA-Z0-9]*)` at the head of the
input; on success return the captured group and the rest of the input. -/
def matchInterfaceAt (cs : List Char) : Option (String × List Char) :=
  match stripLit ("interface".toList) cs with
  | none => none
  | some r1 =>
    let sp := r1.takeWhile pySpace
    if sp = [] then none
    else
      match r1.drop sp.length with
      | [] => none
      | c :: t =>
        if c.isAlpha then
          let tl := t.takeWhile (fun ch => ch.isAlpha || ch.isDigit)
          some (String.mk (c :: tl), t.drop tl.length)
        else none

/-- Source: `re.findall` driver: try a match at every position, resuming after the
consumed text on success.  The fuel starts at the input length, which is
an upper bound on the number of scan steps since every step consumes at
least one character. -/
def findAllAux (m : List Char → Option (String × List Char)) :
    Nat → List Char → List String
  | 0, _ => []
  | _, [] => []
  | fuel + 1, c :: t =>
    match m (c :: t) with
    | some (name, rest) => name :: findAllAux m fuel rest
    | none => findAllAux m fuel t

/-- Source: `re.findall(r"interface\s+([a-zA-Z][a-zA-Z0-9]*)", code)`. -/
def findInterfaces (code : String) : List String :=
  findAllAux matchInterfaceAt code.toList.length code.toList

/-- Try `(?:const|let|var)\s+([a-zA-Z_$][a-zA-Z0-9_$]*)` at the head (the
`\b` to its left is handled by the caller; the three keywords start with
distinct characters, so the alternation never backtracks). -/
def matchVarAt (cs : List Char) : Option (String × List Char) :=
  let afterKw :=
    match stripLit ("const".toList) cs with
    | some r => some r
    | none =>
      match stripLit ("let".toList) cs with
      | some r => some r
      | none => stripLit ("var".toList) cs
  match afterKw with
  | none => none
  | some r1 =>
    let sp := r1.takeWhile pySpace
    if sp = [] then none
    else
      match r1.drop sp.length with
      | [] => none
      | c :: t =>
        if c.isAlpha || c = '_' || c = '$' then
          let tl := t.takeWhile (fun ch => ch.isAlpha || ch.isDigit || ch = '_' || ch = '$')
          some (String.mk (c :: tl), t.drop tl.length)
        else none

/-- findall driver with a `\b` to the left of the pattern: a match may only
start where the previous character is not a word character.  After a
match the resumption boundary is decided by the last captured character. -/
def findAllBoundaryAux (m : List Char → Option (String × List Char)) :
    Nat → Bool → List Char → List String
  | 0, _, _ => []
  | _, _, [] => []
  | fuel + 1, boundary, c :: t =>
    match if boundary then m (c :: t) else none with
    | some (name, rest) =>
      name :: findAllBoundaryAux m fuel (!isWordChar ((name.toList).getLastD c)) rest
    | none => findAllBoundaryAux m fuel (!isWordChar c) t

/-- Source: `re.findall(r"\b(?:const|let|var)\s+([a-zA-Z_$][a-zA-Z0-9_$]*)", code)`. -/
def findVars (code : String) : List String :=
  findAllBoundaryAux matchVarAt code.toList.length true code.toList

/-! ## Naming validators

Three sibling `validate_naming` implementations share the binary-score
contract.  `NamingResult.score` is 0.0 or 1.0 (scaled ×10 only later, by
the orchestrators). -/

structure NamingResult where
  follows_conventions : Bool
  violations : List String
  score : Rat
deriving DecidableEq, Repr

/-- Python `str.endswith`, on the underlying character lists. -/
def pyEndsWith (s sfx : String) : Bool := sfx.toList.isSuffixOf s.toList

/-- Source: `interface_name[0].isupper()` (the regex guarantees a nonempty name). -/
def headIsUpper (s : String) : Bool :=
  match s.toList with
  | [] => false
  | c :: _ => c.isUpper

def headIsLower (s : String) : Bool :=
  match s.toList with
  | [] => false
  | c :: _ => c.isLower

namespace Validator

/-- The `naming_conventions` dict keys read by src/validator.py; a missing
key is `none`. -/
structure NamingConventions where
  interfaces : Option String
  props_interface_suffix : Option String
deriving DecidableEq, Repr

/-- Violations one interface name contributes, in source order: the
PascalCase check, then the suffix check (`required_suffix and not
name.endswith(...)` — an empty configured suffix is falsy and skipped). -/
def interfaceViolations (conv : NamingConventions) (name : String) : List String :=
  (if conv.interfaces = some "PascalCase" ∧ headIsUpper name = false then
    ["Interface " ++ name ++ " is not PascalCase (must start with uppercase)"]
  else []) ++
  (match conv.props_interface_suffix with
  | some sfx =>
    if sfx ≠ "" ∧ pyEndsWith name sfx = false then
      ["Interface " ++ name ++ " missing " ++ sfx ++ " suffix"]
    else []
  | none => [])

/-- Source: `validate_naming` of src/validator.py: extract interface names, pass
trivially when none are found, otherwise collect violations; the score is
1.0 exactly when the violation list is empty. -/
def validate_naming (code : String) (conv : NamingConventions) : NamingResult :=
  let interfaces := findInterfaces code
  if interfaces = [] then ⟨true, [], 1⟩
  else
    let violations := interfaces.flatMap (interfaceViolations conv)
    ⟨violations.isEmpty, violations, if violations.isEmpty then 1 else 0⟩

end Validator

namespace TypedEmitsValidator

/-- Convention keys read by typed_emits_composable/validator.py:
`interface_suffixes` (a list) takes precedence over the legacy
`props_interface_suffix` whenever it is present (even as `[]`). -/
structure NamingConventions where
  interfaces : Option String
  interface_suffixes : Option (List String)
  props_interface_suffix : Option String
deriving DecidableEq, Repr

def interfaceViolations (conv : NamingConventions) (name : String) : List String :=
  (if conv.interfaces = some "PascalCase" ∧ headIsUpper name = false then
    ["Interface " ++ name ++ " is not PascalCase (must start with uppercase)"]
  else []) ++
  (match conv.interface_suffixes with
  | some suffixes =>
    if suffixes.any (fun s => pyEndsWith name s) then []
    else ["Interface " ++ name ++ " must end with one of: " ++ toString suffixes]
  | none =>
    match conv.props_interface_suffix with
    | some sfx =>
      if sfx ≠ "" ∧ pyEndsWith name sfx = false then
        ["Interface " ++ name ++ " missing " ++ sfx ++ " suffix"]
      else []
    | none => [])

/-- Source: `validate_naming` of typed_emits_composable/validator.py. -/
def validate_naming (code : String) (conv : NamingConventions) : NamingResult :=
  let interfaces := findInterfaces code
  if interfaces = [] then ⟨true, [], 1⟩
  else
    let violations := interfaces.flatMap (interfaceViolations conv)
    ⟨violations.isEmpty, violations, if violations.isEmpty then 1 else 0⟩

end TypedEmitsValidator

namespace VeeValidator

/-- The `variables` convention key of the creation validator, modelled as
the configured rule string; Python truthiness makes `None` and `""`
equivalent to the rule being absent.  (`variablesField` stands for the
dict key `variables`, which is a reserved word in Lean.) -/
structure VarConventions where
  variablesField : Option String
deriving DecidableEq, Repr

def varViolation (name : String) : List String :=
  if headIsLower name then []
  else ["Variable " ++ name ++ " is not camelCase (must start with lowercase letter)"]

/-- Source: `validate_naming` of veevalidate_zod_form/validator.py: no configured
variable rule or no matched declarations pass trivially; otherwise any
name not starting with a lowercase letter zeroes the score. -/
def validate_naming (code : String) (conv : VarConventions) : NamingResult :=
  match conv.variablesField with
  | none => ⟨true, [], 1⟩
  | some v =>
    if v = "" then ⟨true, [], 1⟩
    else
      let names := findVars code
      if names = [] then ⟨true, [], 1⟩
      else
        let violations := names.flatMap varViolation
        ⟨violations.isEmpty, violations, if violations.isEmpty then 1 else 0⟩

end VeeValidator

/-! ## Structural-pattern validators

Two strategies share the `validate_ast_structure(code, expected_patterns)`
contract: the AST strategy (src/validator.py, agent/ts_bugfix/validator.py)
shells out to the node parser, the regex strategy
(creation/veevalidate_zod_form/validator.py) checks patterns in-process.
Each embedded function also returns the list of external processes it
invoked, so that "no external process" is statable. -/

/-- A JSON value sitting in the `required_patterns` dict. -/
inductive PatVal where
  | str (s : String)
  | strs (l : List String)
  | boolean (b : Bool)
deriving DecidableEq, Repr

/-- Python truthiness of a pattern value. -/
def patTruthy : PatVal → Bool
  | .str s => s ≠ ""
  | .strs l => l ≠ []
  | .boolean b => b

/-- The `required_patterns` dict, as an insertion-ordered association list
with distinct keys (dict semantics). -/
abbrev ExpectedPatterns := List (String × PatVal)

def lookupPat (ep : ExpectedPatterns) (k : String) : Option PatVal :=
  match ep.find? (fun e => e.1 = k) with
  | some e => some e.2
  | none => none

def hasKey (ep : ExpectedPatterns) (k : String) : Bool := (lookupPat ep k).isSome

/-- Source: `list(expected_patterns.keys())`. -/
def patKeys (ep : ExpectedPatterns) : List String := ep.map Prod.fst

/-- Python `round(x, 1)`; every score the validators build is an exact
multiple of 1/10, so the tie-breaking rule never fires and floor-rounding
is equivalent. -/
def round1 (q : Rat) : Rat := (⌊q * 10 + 1 / 2⌋ : Int) / 10

/-- The single-quote character (for the quote class in the regexes). -/
def squote : Char := Char.ofNat 39

def isQuoteChar (c : Char) : Bool := c = '"' || c = squote

/-- Source: `lang=["\x27]ts["\x27]` at the head of the input (the two quote
classes are independent, mismatched quotes are accepted by the regex). -/
def matchLangTs (cs : List Char) : Bool :=
  match cs with
  | 'l' :: 'a' :: 'n' :: 'g' :: '=' :: q1 :: 't' :: 's' :: q2 :: _ =>
    isQuoteChar q1 && isQuoteChar q2
  | _ => false

/-- After `<script` and at least one non-`>` character, look for the
`lang=...` literal with only non-`>` characters in between (the `[^>]+`
class of the pattern). -/
def lookLang : List Char → Bool
  | [] => false
  | c :: t =>
    if matchLangTs (c :: t) then true
    else if c = '>' then false
    else lookLang t

/-- Source: `re.search(r"<script[^>]+lang=[\x22\x27]ts[\x22\x27]", code)`. -/
def hasScriptLangTs : List Char → Bool
  | [] => false
  | c :: t =>
    (match stripLit ("<script".toList) (c :: t) with
     | some (d :: r) => if d = '>' then false else lookLang r
     | some [] => false
     | none => false) || hasScriptLangTs t

/-- Source: `kw\s*\(` at the head (used for `useForm(`, `z.object(`,
`toTypedSchema(`). -/
def matchCallAt (kw : List Char) (cs : List Char) : Bool :=
  match stripLit kw cs with
  | none => false
  | some r =>
    match r.dropWhile pySpace with
    | '(' :: _ => true
    | _ => false

/-- Source: `re.search` for a pattern with a leading `\b` (all these keywords start
with a word character, so the boundary means: at the string start or after
a non-word character). -/
def searchBoundary (m : List Char → Bool) : Bool → List Char → Bool
  | _, [] => false
  | boundary, c :: t => (boundary && m (c :: t)) || searchBoundary m (!isWordChar c) t

/-- Source: `re.search(r"\b" + kw + r"\s*\(", code)`. -/
def searchWordCall (kw : String) (cs : List Char) : Bool :=
  searchBoundary (matchCallAt kw.toList) true cs

/-- Source: `errors\.[a-zA-Z]` at the head. -/
def matchErrorsDotAt (cs : List Char) : Bool :=
  match stripLit ("errors.".toList) cs with
  | some (c :: _) => c.isAlpha
  | _ => false

/-- Source: `re.search(r"\berrors\.[a-zA-Z]", code)`. -/
def searchErrorsDot (cs : List Char) : Bool :=
  searchBoundary matchErrorsDotAt true cs

/-- Plain substring containment (`re.search` on an escaped literal with no
boundary, used for `<ErrorMessage`). -/
def containsLit (lit : List Char) : List Char → Bool
  | [] => (stripLit lit ([] : List Char)).isSome
  | c :: t => (stripLit lit (c :: t)).isSome || containsLit lit t

/-- Source: `\bf\b` at the head for a field name `f` made of word characters: the
literal, followed by a non-word character or the string end. -/
def matchFieldAt (f : List Char) (cs : List Char) : Bool :=
  match stripLit f cs with
  | some [] => true
  | some (c :: _) => !isWordChar c
  | none => false

/-- Source: `re.search(rf"\b\x7bre.escape(f)\x7d\b", code)` for a word-character
field name. -/
def searchField (f : String) (cs : List Char) : Bool :=
  searchBoundary (matchFieldAt f.toList) true cs

namespace VeeValidator

/-- One entry of the regex validator `checks` dict: plain booleans, plus
the per-field breakdown stored under `fields_detail`. -/
inductive CheckVal where
  | b (v : Bool)
  | detail (m : List (String × Bool))
deriving DecidableEq, Repr

structure ASTResult where
  score : Rat
  missing : List String
  checks : List (String × CheckVal)
deriving DecidableEq, Repr

/-- Source: `validate_ast_structure` of the creation validator: pure regex checks,
each category worth 2.0 points; `if not code` short-circuits for `None`
and the empty string.  The second component is the list of external
processes invoked — there is no subprocess call anywhere in this
function. -/
def validate_ast_structure (code : Option String) (ep : ExpectedPatterns) :
    ASTResult × List String :=
  match code with
  | none => (⟨0, patKeys ep, []⟩, [])
  | some s =>
    if s = "" then (⟨0, patKeys ep, []⟩, [])
    else
      let cs := s.toList
      let langRequested := lookupPat ep "script_lang" = some (.str "ts")
      let langFound := hasScriptLangTs cs
      let useFormFound := searchWordCall "useForm" cs
      let hasZObject := searchWordCall "z.object" cs
      let hasTypedSchema := searchWordCall "toTypedSchema" cs
      let requiredFields :=
        match lookupPat ep "fields" with
        | some (.strs l) => l
        | _ => []
      let missingFields := requiredFields.filter (fun f => !searchField f cs)
      let errorDisplayFound := searchErrorsDot cs || containsLit ("<ErrorMessage".toList) cs
      let score : Rat :=
        (if langRequested ∧ langFound then 2 else 0)
        + (if hasKey ep "use_form" ∧ useFormFound then 2 else 0)
        + (if (hasKey ep "zod_schema" ∨ hasKey ep "typed_schema")
              ∧ hasZObject ∧ hasTypedSchema then 2 else 0)
        + (if requiredFields ≠ [] ∧ missingFields = [] then 2 else 0)
        + (if hasKey ep "error_display" ∧ errorDisplayFound then 2 else 0)
      let missing : List String :=
        (if langRequested ∧ langFound = false then ["script_lang"] else [])
        ++ (if hasKey ep "use_form" ∧ useFormFound = false then ["use_form"] else [])
        ++ (if (hasKey ep "zod_schema" ∨ hasKey ep "typed_schema")
               ∧ ¬(hasZObject ∧ hasTypedSchema) then
              (if hasZObject = false ∧ hasKey ep "zod_schema" then ["zod_schema"] else [])
              ++ (if hasTypedSchema = false ∧ hasKey ep "typed_schema" then ["typed_schema"] else [])
            else [])
        ++ (if requiredFields ≠ [] ∧ missingFields ≠ [] then ["fields"] else [])
        ++ (if hasKey ep "error_display" ∧ errorDisplayFound = false then ["error_display"] else [])
      let checks : List (String × CheckVal) :=
        (if langRequested then [("script_lang", CheckVal.b langFound)] else [])
        ++ (if hasKey ep "use_form" then [("use_form", CheckVal.b useFormFound)] else [])
        ++ (if hasKey ep "zod_schema" then [("zod_schema", CheckVal.b hasZObject)] else [])
        ++ (if hasKey ep "typed_schema" then [("typed_schema", CheckVal.b hasTypedSchema)] else [])
        ++ (if requiredFields ≠ [] then
              [("fields", CheckVal.b (missingFields = [])),
               ("fields_detail", CheckVal.detail
                 (requiredFields.map (fun f => (f, !(f ∈ missingFields)))))]
            else [])
        ++ (if hasKey ep "error_display" then [("error_display", CheckVal.b errorDisplayFound)] else [])
      (⟨round1 score, missing, checks⟩, [])

end VeeValidator

/-! ### AST strategy -/

/-- The four boolean facts emitted by scripts/parse_vue_ast.js. -/
structure AstJson where
  has_script_lang_ts : Bool
  has_interfaces : Bool
  has_type_annotations : Bool
  has_imports : Bool
deriving DecidableEq, Repr

/-- Outcome of the `node parse_vue_ast.js <temp>` subprocess, as observed
by the validator. -/
inductive ParserBehavior where
  /-- node or the script is absent: `subprocess.run` raises
  FileNotFoundError. -/
  | missingRuntime
  /-- non-zero exit, stderr is a JSON object whose error field reads
  `errMsg` (`Unknown error` when the field is absent). -/
  | badExitJson (errMsg : String)
  /-- non-zero exit, non-empty stderr that is not JSON. -/
  | badExitRaw (stderrText : String)
  /-- non-zero exit code `rc`, empty stderr. -/
  | badExitSilent (rc : Nat)
  /-- exit 0 but stdout is not JSON. -/
  | malformedStdout (raw : String)
  /-- exit 0 with a JSON report (absent keys default to false). -/
  | ok (data : AstJson)
deriving DecidableEq, Repr

/-- The `missing` list computed by both AST-strategy validators, in source
order; a requested fact that the parser reports false is missing, and
`imports` is only consulted when its configured value is truthy. -/
def astMissing (ep : ExpectedPatterns) (data : AstJson) : List String :=
  if ep = [] then []
  else
    (if hasKey ep "interfaces" ∧ data.has_interfaces = false then ["interfaces"] else [])
    ++ (if hasKey ep "type_annotations" ∧ data.has_type_annotations = false then
          ["type_annotations"] else [])
    ++ (if hasKey ep "script_lang" ∧ data.has_script_lang_ts = false then ["script_lang"] else [])
    ++ (if ((lookupPat ep "imports").map patTruthy).getD false ∧ data.has_imports = false
        then ["imports"] else [])

/-- The AST-strategy score: interfaces 3.3, type annotations 3.3, typed
script marker 3.4, rounded to one decimal. -/
def astScoreOf (data : AstJson) : Rat :=
  round1 ((if data.has_interfaces then (3.3 : Rat) else 0)
    + (if data.has_type_annotations then (3.3 : Rat) else 0)
    + (if data.has_script_lang_ts then (3.4 : Rat) else 0))

namespace Validator

structure ASTResult where
  has_interfaces : Bool
  has_type_annotations : Bool
  has_imports : Bool
  missing : List String
  score : Rat
deriving DecidableEq, Repr

/-- Source: `validate_ast_structure` of src/validator.py: write the code (empty
string for `None`) to a temp file and invoke the node parser — on every
path, including empty input; non-zero exit or malformed JSON raises.  The
second component is the list of external processes invoked. -/
def validate_ast_structure (code : Option String) (ep : ExpectedPatterns)
    (parser : ParserBehavior) : Except String ASTResult × List String :=
  match parser with
  | .missingRuntime => (.error "Node.js or parse_vue_ast.js not found", ["node"])
  | .badExitJson m => (.error ("AST parsing failed: " ++ m), ["node"])
  | .badExitRaw t => (.error ("AST parsing failed: " ++ t), ["node"])
  | .badExitSilent rc => (.error ("AST parser returned non-zero exit code: " ++ toString rc), ["node"])
  | .malformedStdout raw => (.error ("Failed to parse AST output as JSON: " ++ raw), ["node"])
  | .ok data =>
    (.ok ⟨data.has_interfaces, data.has_type_annotations, data.has_imports,
      astMissing ep data, astScoreOf data⟩, ["node"])

end Validator

namespace BugfixValidator

structure ASTResult where
  has_interfaces : Bool
  has_type_annotations : Bool
  has_imports : Bool
  missing : List String
  score : Rat
  checks : List (String × Bool)
deriving DecidableEq, Repr

/-- The `checks` dict populated by `__post_init__` when the dataclass is
constructed without an explicit checks argument (the degraded-result path
of the orchestrators). -/
def defaultChecks (hi ht him : Bool) : List (String × Bool) :=
  [("has_interfaces", hi), ("has_type_annotations", ht), ("has_imports", him)]

/-- Source: `validate_ast_structure` of agent/ts_bugfix/validator.py: identical
pipeline to src/validator.py, with an explicit four-entry `checks`
breakdown on success.  It also invokes the node parser on every path. -/
def validate_ast_structure (code : Option String) (ep : ExpectedPatterns)
    (parser : ParserBehavior) : Except String ASTResult × List String :=
  match parser with
  | .missingRuntime => (.error "Node.js or parse_vue_ast.js not found", ["node"])
  | .badExitJson m => (.error ("AST parsing failed: " ++ m), ["node"])
  | .badExitRaw t => (.error ("AST parsing failed: " ++ t), ["node"])
  | .badExitSilent rc => (.error ("AST parser returned non-zero exit code: " ++ toString rc), ["node"])
  | .malformedStdout raw => (.error ("Failed to parse AST output as JSON: " ++ raw), ["node"])
  | .ok data =>
    (.ok ⟨data.has_interfaces, data.has_type_annotations, data.has_imports,
      astMissing ep data, astScoreOf data,
      [("has_script_lang_ts", data.has_script_lang_ts),
       ("has_interfaces", data.has_interfaces),
       ("has_type_annotations", data.has_type_annotations),
       ("has_imports", data.has_imports)]⟩, ["node"])

end BugfixValidator

/-! ## Inference client (src/common/ollama_client.py) -/

namespace OllamaClient

/-- What `ollama.chat` hands back on success; absent timing/token fields
default to 0 via `response.get(..., 0)`. -/
structure BackendResponse where
  content : String
  eval_duration : Nat
  eval_count : Nat
deriving DecidableEq, Repr

/-- The typed error taxonomy raised by `chat`; the payload is the raised
message. -/
inductive ChatError where
  | modelNotFound (msg : String)
  | connection (msg : String)
  | timeout (msg : String)
  | generic (msg : String)
deriving DecidableEq, Repr

structure ChatResult where
  response_text : String
  duration_sec : Rat
  tokens_generated : Nat
  tokens_per_sec : Rat
  success : Bool
  error : Option String
deriving DecidableEq, Repr

/-- Source: `str.lower()`, on the underlying character list. -/
def lowerStr (s : String) : String := String.mk (s.toList.map Char.toLower)

/-- Case-insensitive substring sniffing on the backend error text. -/
def sniff (needle : String) (haystack : String) : Bool :=
  containsLit needle.toList (lowerStr haystack).toList

/-- Source: `chat(model, prompt, timeout)`: on backend success build a ChatResult
with `success=True, error=None` (duration from the nanosecond counter,
tokens/sec guarded against zero); on a backend exception classify its
message and raise — the function never returns a failed ChatResult. -/
def chat (modelName : String) (baseUrl : String) (timeout : Nat)
    (backend : Except String BackendResponse) : Except ChatError ChatResult :=
  match backend with
  | .ok resp =>
    let duration_sec : Rat :=
      if resp.eval_duration ≠ 0 then (resp.eval_duration : Rat) / 1000000000 else 0
    let tokens_per_sec : Rat :=
      if 0 < duration_sec then (resp.eval_count : Rat) / duration_sec else 0
    .ok ⟨resp.content, duration_sec, resp.eval_count, tokens_per_sec, true, none⟩
  | .error e =>
    if sniff "not found" e || sniff "does not exist" e then
      .error (.modelNotFound ("Model " ++ modelName ++ " not found in Ollama"))
    else if sniff "connection" e || sniff "refused" e then
      .error (.connection ("Connection error to Ollama API at " ++ baseUrl))
    else if sniff "timeout" e || sniff "timed out" e then
      .error (.timeout ("Ollama request exceeded timeout of " ++ toString timeout ++ "s"))
    else
      .error (.generic e)

end OllamaClient

/-! ## Agent loop driver (src/agent/common/agent_client.py) -/

/-- One entry of the reconstructed tool-call log. -/
structure ToolCallEntry where
  step : Nat
  tool : String
  args : String
  result_summary : String
deriving DecidableEq, Repr

namespace AgentClient

/-- One `ActionStep` of `agent.memory.steps`: its tool calls (name and
arguments) and the concatenated observations string. -/
structure StepData where
  tool_calls : List (String × String)
  observations : String
deriving DecidableEq, Repr

/-- The smolagents `RunResult` fields `run_agent` reads; reading
`token_usage.output_tokens` may itself raise, which the source maps to 0
(modelled by `none`). -/
structure LoopOk where
  state : String
  output : Option String
  output_tokens : Option Nat
deriving DecidableEq, Repr

/-- External behaviour of one agent loop execution: the outcome of
`agent.run` (an exception is the error case), the memory steps the
log-extraction loop manages to iterate before an optional extraction
exception, and the measured wall-clock duration. -/
structure AgentEnv where
  loopOutcome : Except String LoopOk
  memorySteps : List StepData
  memoryError : Option String
  duration_sec : Rat
deriving Repr

structure AgentRunResult where
  succeeded : Bool
  iterations : Nat
  final_output : String
  tool_call_log : List ToolCallEntry
  duration_sec : Rat
  tokens_per_sec : Rat
  errors : List String
deriving DecidableEq, Repr

/-- Truncate an observations string to 200 characters plus an ellipsis
marker. -/
def summarize (obs : String) : String :=
  if 200 < obs.length then obs.take 200 ++ "..." else obs

/-- Source: `run_agent`: drive the loop; an exception from the loop is caught,
recorded as `Agent run error: ...` and forces `succeeded=False`; the log
is rebuilt afterwards from the memory steps (an extraction failure is
appended to errors, keeping the entries already built); a result is
returned on every path. -/
def run_agent (env : AgentEnv) : AgentRunResult :=
  let (succeeded, final_output, output_tokens, errs0) :=
    match env.loopOutcome with
    | .ok r => (r.state == "success", r.output.getD "", r.output_tokens.getD 0,
        ([] : List String))
    | .error e => (false, "", 0, ["Agent run error: " ++ e])
  let tokens_per_sec : Rat :=
    if 0 < env.duration_sec ∧ 0 < output_tokens then
      (output_tokens : Rat) / env.duration_sec
    else 0
  let step_count := env.memorySteps.length
  let log := env.memorySteps.enum.flatMap (fun p =>
    p.2.tool_calls.map (fun tc =>
      ⟨p.1 + 1, tc.1, tc.2, summarize p.2.observations⟩))
  let errs := errs0 ++
    (match env.memoryError with
    | some m => ["Log extraction error: " ++ m]
    | none => [])
  ⟨succeeded, step_count, final_output, log, env.duration_sec, tokens_per_sec, errs⟩

/-! Interface facts for the `AgentTest.run` ↔ `run_agent` seam, recorded
verbatim from the two modules (used to settle the steps/iterations
claim). -/

/-- Keyword parameters declared by `run_agent` in agent_client.py. -/
def runAgentParamNames : List String := ["model", "task", "tools", "max_iterations"]

/-- Field names of the `AgentRunResult` dataclass in agent_client.py. -/
def agentRunResultFieldNames : List String :=
  ["succeeded", "iterations", "final_output", "tool_call_log",
   "duration_sec", "tokens_per_sec", "errors"]

/-- Keyword arguments `AgentTest.run` passes in its `run_agent(...)` call
(ts_bugfix/test_runner.py, step 3). -/
def agentTestRunCallKeywords : List String := ["model", "task", "tools", "max_steps"]

/-- Attributes `AgentTest.run` reads from the object `run_agent` returns. -/
def agentTestRunAccessedFields : List String :=
  ["errors", "tool_call_log", "tokens_per_sec", "duration_sec", "steps", "succeeded"]

end AgentClient

/-! ## Benchmark orchestrators

Each `run()` is embedded as a pure function of the fixture data and an
environment holding the outcomes of its external calls.  The function
returns the run outcome (`Except`: a raised exception is the error case)
TOGETHER with the final content of the sandbox target file, so the
restore-before / produce / validate / restore-always control flow —
including the `finally` block — is explicit in every branch.  Validator
calls that the source wraps in try/except are `Except` environment values;
`validate_compilation` is NOT guarded by the source, so its exception
propagates (after the `finally` restore).  The prompt-rendering and
code-fence extraction steps are pure string massaging whose output is the
`output_code` the environment delivers. -/

structure Weights where
  compilation : Rat
  pattern_match : Rat
  naming : Rat
deriving DecidableEq, Repr

/-- Outcome of the chat + fence-extraction step of the prompt-only
runners. -/
structure ChatOut where
  output_code : String
  tokens_per_sec : Rat
  duration_sec : Rat
deriving DecidableEq, Repr

/-- Outcome of `validate_compilation` (its success flag and classified
output lines). -/
structure CompData where
  success : Bool
  errors : List String
  warnings : List String
deriving DecidableEq, Repr

/-- Outcome of the structural validator as consumed by a runner. -/
structure AstOut where
  score : Rat
  missing : List String
deriving DecidableEq, Repr

/-- Structural outcome with the checks breakdown (creation and agent
runners). -/
structure AstOutChecks where
  score : Rat
  missing : List String
  checks : List (String × Bool)
deriving DecidableEq, Repr

structure NamingOut where
  score : Rat
  violations : List String
deriving DecidableEq, Repr

namespace RefactoringRunner

/-- A successfully constructed RefactoringTest: the fixture artifacts were
all found and the target file snapshot taken. -/
structure Fixture where
  modelName : String
  fixture_name : String
  original_code : String
  weights : Weights
deriving DecidableEq, Repr

structure Env where
  chat : Except String ChatOut
  comp : Except String CompData
  ast : Except String AstOut
  naming : Except String NamingOut
  timestamp : String
deriving Repr

structure BenchmarkResult where
  model : String
  fixture : String
  timestamp : String
  run_number : Nat
  compiles : Bool
  compilation_errors : List String
  compilation_warnings : List String
  pattern_score : Rat
  ast_missing : List String
  naming_score : Rat
  naming_violations : List String
  final_score : Rat
  scoring_weights : Weights
  tokens_per_sec : Rat
  duration_sec : Rat
  output_code : String
  errors : List String
deriving DecidableEq, Repr

/-- Source: `RefactoringTest.run`: restore, chat, write output, compile-check,
guarded AST check, guarded naming check, weighted score, and the
`finally` restore on every exit path. -/
def run (fx : Fixture) (env : Env) (run_number : Nat) :
    Except String BenchmarkResult × String :=
  match env.chat with
  | .error e => (.error e, fx.original_code)
  | .ok chat =>
    match env.comp with
    | .error e => (.error e, fx.original_code)
    | .ok comp =>
      let (astScore, astMissingL, errsA) :=
        match env.ast with
        | .ok a => (a.score, a.missing, ([] : List String))
        | .error m => ((0 : Rat), ["AST parsing failed"], ["AST validation error: " ++ m])
      let (namingScore, namingViol, errsN) :=
        match env.naming with
        | .ok n => (n.score, n.violations, ([] : List String))
        | .error m => ((0 : Rat), ["Naming validation failed"], ["Naming validation error: " ++ m])
      let w := fx.weights
      let final_score :=
        ((if comp.success then (1 : Rat) else 0) * w.compilation
          + astScore / 10 * w.pattern_match
          + namingScore * w.naming) * 10
      (.ok { model := fx.modelName, fixture := fx.fixture_name,
             timestamp := env.timestamp, run_number := run_number,
             compiles := comp.success, compilation_errors := comp.errors,
             compilation_warnings := comp.warnings,
             pattern_score := astScore, ast_missing := astMissingL,
             naming_score := namingScore * 10, naming_violations := namingViol,
             final_score := final_score, scoring_weights := w,
             tokens_per_sec := chat.tokens_per_sec,
             duration_sec := chat.duration_sec,
             output_code := chat.output_code,
             errors := errsA ++ errsN }, fx.original_code)

end RefactoringRunner

namespace CreationRunner

structure Fixture where
  modelName : String
  fixture_name : String
  original_code : String
  weights : Weights
deriving DecidableEq, Repr

structure Env where
  chat : Except String ChatOut
  comp : Except String CompData
  ast : Except String AstOutChecks
  naming : Except String NamingOut
  timestamp : String
deriving Repr

structure BenchmarkResult where
  model : String
  fixture : String
  timestamp : String
  run_number : Nat
  compiles : Bool
  compilation_errors : List String
  compilation_warnings : List String
  pattern_score : Rat
  ast_missing : List String
  ast_checks : List (String × Bool)
  naming_score : Rat
  naming_violations : List String
  final_score : Rat
  scoring_weights : Weights
  tokens_per_sec : Rat
  duration_sec : Rat
  output_code : String
  errors : List String
deriving DecidableEq, Repr

/-- Source: `CreationTest.run`: same shape as the refactoring runner (the prompt is
used as-is); the degraded AST result carries an empty checks dict. -/
def run (fx : Fixture) (env : Env) (run_number : Nat) :
    Except String BenchmarkResult × String :=
  match env.chat with
  | .error e => (.error e, fx.original_code)
  | .ok chat =>
    match env.comp with
    | .error e => (.error e, fx.original_code)
    | .ok comp =>
      let (astScore, astMissingL, astChecks, errsA) :=
        match env.ast with
        | .ok a => (a.score, a.missing, a.checks, ([] : List String))
        | .error m =>
          ((0 : Rat), ["AST parsing failed"], ([] : List (String × Bool)),
            ["AST validation error: " ++ m])
      let (namingScore, namingViol, errsN) :=
        match env.naming with
        | .ok n => (n.score, n.violations, ([] : List String))
        | .error m => ((0 : Rat), ["Naming validation failed"], ["Naming validation error: " ++ m])
      let w := fx.weights
      let final_score :=
        ((if comp.success then (1 : Rat) else 0) * w.compilation
          + astScore / 10 * w.pattern_match
          + namingScore * w.naming) * 10
      (.ok { model := fx.modelName, fixture := fx.fixture_name,
             timestamp := env.timestamp, run_number := run_number,
             compiles := comp.success, compilation_errors := comp.errors,
             compilation_warnings := comp.warnings,
             pattern_score := astScore, ast_missing := astMissingL,
             ast_checks := astChecks,
             naming_score := namingScore * 10, naming_violations := namingViol,
             final_score := final_score, scoring_weights := w,
             tokens_per_sec := chat.tokens_per_sec,
             duration_sec := chat.duration_sec,
             output_code := chat.output_code,
             errors := errsA ++ errsN }, fx.original_code)

end CreationRunner

namespace AgentRunner

/-- The attributes `AgentTest.run` reads from the object the `run_agent`
call returns.  (As its unit tests document, the runner expects a `steps`
attribute and passes a `max_steps` keyword; the real `run_agent` declares
`max_iterations` and returns no `steps` field — that seam mismatch is
recorded by the `AgentClient` interface lists and settled separately.) -/
structure AgentData where
  steps : Nat
  succeeded : Bool
  tool_call_log : List ToolCallEntry
  duration_sec : Rat
  tokens_per_sec : Rat
  errors : List String
deriving DecidableEq, Repr

structure Fixture where
  modelName : String
  fixture_name : String
  original_code : String
  weights : Weights
  max_steps : Nat
deriving DecidableEq, Repr

structure Env where
  agent : Except String AgentData
  readTarget : Except String String
  comp : Except String CompData
  ast : Except String AstOutChecks
  naming : Except String NamingOut
  timestamp : String
deriving Repr

structure AgentBenchmarkResult where
  model : String
  fixture : String
  timestamp : String
  run_number : Nat
  compiles : Bool
  compilation_errors : List String
  compilation_warnings : List String
  pattern_score : Rat
  ast_missing : List String
  ast_checks : List (String × Bool)
  naming_score : Rat
  naming_violations : List String
  final_score : Rat
  scoring_weights : Weights
  tokens_per_sec : Rat
  duration_sec : Rat
  output_code : String
  errors : List String
  steps : Nat
  max_steps : Nat
  iterations : Nat
  succeeded : Bool
  tool_call_log : List ToolCallEntry
deriving DecidableEq, Repr

/-- Source: `AgentTest.run`: restore the buggy state, run the agent loop (an
exception propagates after the `finally` restore), count `iterations` as
the `run_compilation` entries of the trace, read the final target state
(guarded), compile-check, guarded AST and naming checks (the degraded AST
result gets the `__post_init__` checks dict), weighted score, `finally`
restore on every exit path. -/
def run (fx : Fixture) (env : Env) (run_number : Nat) :
    Except String AgentBenchmarkResult × String :=
  match env.agent with
  | .error e => (.error e, fx.original_code)
  | .ok ag =>
    let iterations := (ag.tool_call_log.filter (fun e => e.tool == "run_compilation")).length
    let (output_code, errsRead) :=
      match env.readTarget with
      | .ok c => (c, ([] : List String))
      | .error m => ("", ["Could not read target file after agent run: " ++ m])
    match env.comp with
    | .error e => (.error e, fx.original_code)
    | .ok comp =>
      let (astScore, astMissingL, astChecks, errsA) :=
        match env.ast with
        | .ok a => (a.score, a.missing, a.checks, ([] : List String))
        | .error m =>
          ((0 : Rat), ["AST parsing failed"],
            BugfixValidator.defaultChecks false false false,
            ["AST validation error: " ++ m])
      let (namingScore, namingViol, errsN) :=
        match env.naming with
        | .ok n => (n.score, n.violations, ([] : List String))
        | .error m => ((0 : Rat), ["Naming validation failed"], ["Naming validation error: " ++ m])
      let w := fx.weights
      let final_score :=
        ((if comp.success then (1 : Rat) else 0) * w.compilation
          + astScore / 10 * w.pattern_match
          + namingScore * w.naming) * 10
      (.ok { model := fx.modelName, fixture := fx.fixture_name,
             timestamp := env.timestamp, run_number := run_number,
             compiles := comp.success, compilation_errors := comp.errors,
             compilation_warnings := comp.warnings,
             pattern_score := astScore, ast_missing := astMissingL,
             ast_checks := astChecks,
             naming_score := namingScore * 10, naming_violations := namingViol,
             final_score := final_score, scoring_weights := w,
             tokens_per_sec := ag.tokens_per_sec,
             duration_sec := ag.duration_sec,
             output_code := output_code,
             errors := ag.errors ++ errsRead ++ errsA ++ errsN,
             steps := ag.steps, max_steps := fx.max_steps,
             iterations := iterations, succeeded := ag.succeeded,
             tool_call_log := ag.tool_call_log }, fx.original_code)

end AgentRunner

/-! ## Helper lemmas about the tool error strings -/

theorem isError_errOutside (p : String) : IsErrorString (Tools.errOutside p) :=
  ⟨" Path " ++ (p ++ " is outside the project directory."), by
    unfold Tools.errOutside
    rw [show "ERROR: Path " = "ERROR:" ++ " Path " from rfl]
    simp only [String.append_assoc]⟩

theorem isError_errNotPermitted (p : String) (allowed : List String) :
    IsErrorString (Tools.errNotPermitted p allowed) :=
  ⟨" Writing to " ++ (p ++ (" is not permitted. Allowed: "
      ++ toString (Tools.sortStrings allowed.dedup))), by
    unfold Tools.errNotPermitted
    rw [show "ERROR: Writing to " = "ERROR:" ++ " Writing to " from rfl]
    simp only [String.append_assoc]⟩

theorem errOutside_ne_OK (p : String) : Tools.errOutside p ≠ "OK" := by
  intro h
  have h2 := congrArg String.length h
  rw [Tools.errOutside, String.length_append, String.length_append] at h2
  have e1 : ("ERROR: Path ").length = 12 := rfl
  have e2 : (" is outside the project directory.").length = 34 := rfl
  have e3 : ("OK" : String).length = 2 := rfl
  omega

theorem errNotPermitted_ne_OK (p : String) (allowed : List String) :
    Tools.errNotPermitted p allowed ≠ "OK" := by
  intro h
  have h2 := congrArg String.length h
  rw [Tools.errNotPermitted, String.length_append, String.length_append,
    String.length_append] at h2
  have e1 : ("ERROR: Writing to ").length = 18 := rfl
  have e2 : (" is not permitted. Allowed: ").length = 28 := rfl
  have e3 : ("OK" : String).length = 2 := rfl
  omega

/-! ## C5 — path-traversal guard of the sandbox tools -/

/-- C5: for every candidate path whose resolved absolute form under the
sandbox root lies outside the root (`../` traversal and absolute paths
included), each of `read_file`, `write_file` and `list_files` returns a
string starting with `ERROR:`, never raises (the embedding is total), and
performs no file I/O: the filesystem is unchanged and no I/O event
occurs. -/
theorem tools_reject_paths_outside_root
    (root allowed : List String) (fs : FS) (p content : String)
    (h : ¬ root <+: resolveComps (joinPath root (parsePath p))) :
    (IsErrorString (Tools.read_file root fs p).output
      ∧ (Tools.read_file root fs p).fs = fs
      ∧ (Tools.read_file root fs p).events = [])
    ∧ (IsErrorString (Tools.write_file root allowed fs p content).output
      ∧ (Tools.write_file root allowed fs p content).fs = fs
      ∧ (Tools.write_file root allowed fs p content).events = [])
    ∧ (IsErrorString (Tools.list_files root fs p).output
      ∧ (Tools.list_files root fs p).fs = fs
      ∧ (Tools.list_files root fs p).events = []) := by
  have hres : safeResolve root (parsePath p) = none := by
    show (if root <+: resolveComps (joinPath root (parsePath p))
      then some (resolveComps (joinPath root (parsePath p))) else none) = none
    exact if_neg h
  have hread : Tools.read_file root fs p = ⟨Tools.errOutside p, fs, []⟩ := by
    unfold Tools.read_file
    rw [hres]
  have hlist : Tools.list_files root fs p = ⟨Tools.errOutside p, fs, []⟩ := by
    unfold Tools.list_files
    rw [hres]
  refine ⟨?_, ?_, ?_⟩
  · rw [hread]
    exact ⟨isError_errOutside p, rfl, rfl⟩
  · by_cases hp : p ∈ allowed
    · have hw : Tools.write_file root allowed fs p content
          = ⟨Tools.errOutside p, fs, []⟩ := by
        unfold Tools.write_file
        rw [if_pos hp, hres]
      rw [hw]
      exact ⟨isError_errOutside p, rfl, rfl⟩
    · have hw : Tools.write_file root allowed fs p content
          = ⟨Tools.errNotPermitted p allowed, fs, []⟩ := by
        unfold Tools.write_file
        rw [if_neg hp]
      rw [hw]
      exact ⟨isError_errNotPermitted p allowed, rfl, rfl⟩
  · rw [hlist]
    exact ⟨isError_errOutside p, rfl, rfl⟩

/-- A tiny sandbox for the concrete instantiations. -/
def c5Root : List String := ["home", "user", "proj"]

def c5FS : FS := [(["home", "user", "proj", "App.vue"], "x")]

/-- C5 witness: the guard fires concretely for the traversal path
`../../../etc/passwd` and for the absolute path `/etc/passwd`. -/
theorem tools_reject_paths_outside_root_witness :
    ((¬ c5Root <+: resolveComps (joinPath c5Root (parsePath "../../../etc/passwd")))
    ∧ ((IsErrorString (Tools.read_file c5Root c5FS "../../../etc/passwd").output
        ∧ (Tools.read_file c5Root c5FS "../../../etc/passwd").fs = c5FS
        ∧ (Tools.read_file c5Root c5FS "../../../etc/passwd").events = [])
      ∧ (IsErrorString (Tools.write_file c5Root ["../../../etc/passwd"] c5FS
            "../../../etc/passwd" "pwn").output
        ∧ (Tools.write_file c5Root ["../../../etc/passwd"] c5FS
            "../../../etc/passwd" "pwn").fs = c5FS
        ∧ (Tools.write_file c5Root ["../../../etc/passwd"] c5FS
            "../../../etc/passwd" "pwn").events = [])
      ∧ (IsErrorString (Tools.list_files c5Root c5FS "../../../etc/passwd").output
        ∧ (Tools.list_files c5Root c5FS "../../../etc/passwd").fs = c5FS
        ∧ (Tools.list_files c5Root c5FS "../../../etc/passwd").events = [])))
    ∧ IsErrorString (Tools.read_file c5Root c5FS "/etc/passwd").output :=
  ⟨⟨by decide,
    tools_reject_paths_outside_root c5Root ["../../../etc/passwd"] c5FS
      "../../../etc/passwd" "pwn" (by decide)⟩,
    (tools_reject_paths_outside_root c5Root [] c5FS "/etc/passwd" "pwn"
      (by decide)).1.1⟩

/-! ## C6 — the write allow-list -/

/-- C6 counterexample: membership of the allow-list alone does NOT make
`write_file` succeed.  With the allow-list `["../evil"]` under root
`home/proj`, the path `../evil` is exactly a member, yet the call returns
an error (the traversal guard fires after the allow-list check) and the
filesystem is untouched — the claimed iff fails in the member ⇒ succeeds
direction. -/
theorem write_allowlist_member_can_still_fail_cex :
    "../evil" ∈ ["../evil"]
    ∧ (Tools.write_file ["home", "proj"] ["../evil"] [] "../evil" "x").output ≠ "OK"
    ∧ (Tools.write_file ["home", "proj"] ["../evil"] [] "../evil" "x").fs = [] := by
  decide

/-- C6 amended: `write_file(path, content)` succeeds (returns `OK` and
writes the file) iff `path` is a member of the allow-list string set
(string equality on the original relative path) AND its resolved form
lies inside the root; for every other path it returns an error string and
performs no filesystem mutation. -/
theorem write_file_succeeds_iff_allowlisted_and_contained
    (root allowed : List String) (fs : FS) (p content : String) :
    ((Tools.write_file root allowed fs p content).output = "OK"
      ↔ p ∈ allowed ∧ (safeResolve root (parsePath p)).isSome)
    ∧ (∀ full, p ∈ allowed → safeResolve root (parsePath p) = some full →
        Tools.write_file root allowed fs p content
          = ⟨"OK", fsWrite fs full content, [.writeF full]⟩)
    ∧ ((Tools.write_file root allowed fs p content).output ≠ "OK" →
        (Tools.write_file root allowed fs p content).fs = fs
        ∧ (Tools.write_file root allowed fs p content).events = []) := by
  by_cases hp : p ∈ allowed
  · cases hres : safeResolve root (parsePath p) with
    | some full =>
      have hw : Tools.write_file root allowed fs p content
          = ⟨"OK", fsWrite fs full content, [.writeF full]⟩ := by
        unfold Tools.write_file
        rw [if_pos hp, hres]
      rw [hw]
      refine ⟨by simp [hp, hres], ?_, ?_⟩
      · intro full2 _ hres2
        cases hres2
        rfl
      · intro hne
        exact absurd rfl hne
    | none =>
      have hw : Tools.write_file root allowed fs p content
          = ⟨Tools.errOutside p, fs, []⟩ := by
        unfold Tools.write_file
        rw [if_pos hp, hres]
      rw [hw]
      refine ⟨?_, ?_, ?_⟩
      · constructor
        · intro hOK
          exact absurd hOK (errOutside_ne_OK p)
        · rintro ⟨-, hsome⟩
          simp at hsome
      · intro full _ hres2
        exact Option.noConfusion hres2
      · intro _
        exact ⟨rfl, rfl⟩
  · have hw : Tools.write_file root allowed fs p content
        = ⟨Tools.errNotPermitted p allowed, fs, []⟩ := by
      unfold Tools.write_file
      rw [if_neg hp]
    rw [hw]
    refine ⟨?_, ?_, ?_⟩
    · constructor
      · intro hOK
        exact absurd hOK (errNotPermitted_ne_OK p allowed)
      · rintro ⟨hmem, -⟩
        exact absurd hmem hp
    · intro full hmem _
      exact absurd hmem hp
    · intro _
      exact ⟨rfl, rfl⟩

def c6Root : List String := ["proj"]

/-- C6 witness: an allow-listed, contained path is written with `OK`. -/
theorem write_file_succeeds_iff_witness :
    ("src/App.vue" ∈ ["src/App.vue"]
      ∧ safeResolve c6Root (parsePath "src/App.vue") = some ["proj", "src", "App.vue"])
    ∧ Tools.write_file c6Root ["src/App.vue"] [] "src/App.vue" "code"
        = ⟨"OK", fsWrite [] ["proj", "src", "App.vue"] "code",
            [.writeF ["proj", "src", "App.vue"]]⟩ :=
  ⟨⟨by decide, by decide⟩,
    (write_file_succeeds_iff_allowlisted_and_contained c6Root ["src/App.vue"] []
      "src/App.vue" "code").2.1 ["proj", "src", "App.vue"] (by decide) (by decide)⟩

/-! ## C1 — the restoration invariant -/

/-- C1: for every orchestrator run on a successfully constructed fixture —
prompt-only `RefactoringTest`/`CreationTest` or agentic `AgentTest` —
whether `run()` returns normally or raises (the `Except` error case of the
first component), the content of the target file after the run (the second
component) equals the snapshot captured at construction; this holds for
every environment, i.e. for every outcome of every external call. -/
theorem target_file_restored_on_every_run_path :
    ∀ (fx1 : RefactoringRunner.Fixture) (env1 : RefactoringRunner.Env) (n1 : Nat)
      (fx2 : CreationRunner.Fixture) (env2 : CreationRunner.Env) (n2 : Nat)
      (fx3 : AgentRunner.Fixture) (env3 : AgentRunner.Env) (n3 : Nat),
      (RefactoringRunner.run fx1 env1 n1).2 = fx1.original_code
      ∧ (CreationRunner.run fx2 env2 n2).2 = fx2.original_code
      ∧ (AgentRunner.run fx3 env3 n3).2 = fx3.original_code := by
  intro fx1 env1 n1 fx2 env2 n2 fx3 env3 n3
  refine ⟨?_, ?_, ?_⟩
  · obtain ⟨chat, comp, ast, naming, ts⟩ := env1
    cases chat <;> cases comp <;> cases ast <;> cases naming <;> rfl
  · obtain ⟨chat, comp, ast, naming, ts⟩ := env2
    cases chat <;> cases comp <;> cases ast <;> cases naming <;> rfl
  · obtain ⟨agent, readT, comp, ast, naming, ts⟩ := env3
    cases agent <;> cases readT <;> cases comp <;> cases ast <;> cases naming <;> rfl

/-! ## C2 — the weighted scoring formula -/

/-- The example weights of the spec (`compilation 0.5, pattern_match 0.4,
naming 0.1`). -/
def exampleWeights : Weights := ⟨0.5, 0.4, 0.1⟩

def scoreFx : RefactoringRunner.Fixture :=
  ⟨"qwen2.5-coder:7b-instruct-q8_0", "simple-component", "original", exampleWeights⟩

/-- compiles, pattern 6.0, naming fraction 1.0. -/
def scoreEnvA : RefactoringRunner.Env :=
  ⟨.ok ⟨"<template/>", 30, 5⟩, .ok ⟨true, [], []⟩, .ok ⟨6, []⟩, .ok ⟨1, []⟩, "t"⟩

/-- fails to compile, pattern 10.0, naming fraction 1.0. -/
def scoreEnvB : RefactoringRunner.Env :=
  ⟨.ok ⟨"<template/>", 30, 5⟩, .ok ⟨false, ["error TS"], []⟩, .ok ⟨10, []⟩, .ok ⟨1, []⟩, "t"⟩

/-- C2: every result any of the three orchestrators returns satisfies
`final_score = ((compiles ? 1 : 0) * w_compilation + (pattern_score / 10)
* w_pattern + naming_fraction * w_naming) * 10`, where the naming fraction
is the 0–1 output of the validator (the result field stores it rescaled ×10, so
it reappears as `naming_score / 10`); and with weights
`{0.5, 0.4, 0.1}`: compiles with pattern 6.0 and naming 1.0 scores 8.4,
while failing compilation with pattern 10.0 and naming 1.0 scores 5.0. -/
theorem final_score_weighted_formula :
    (∀ (fx : RefactoringRunner.Fixture) (env : RefactoringRunner.Env) (n : Nat)
       (r : RefactoringRunner.BenchmarkResult),
       (RefactoringRunner.run fx env n).1 = .ok r →
       r.final_score = ((if r.compiles then (1 : Rat) else 0) * r.scoring_weights.compilation
         + r.pattern_score / 10 * r.scoring_weights.pattern_match
         + r.naming_score / 10 * r.scoring_weights.naming) * 10)
    ∧ (∀ (fx : CreationRunner.Fixture) (env : CreationRunner.Env) (n : Nat)
       (r : CreationRunner.BenchmarkResult),
       (CreationRunner.run fx env n).1 = .ok r →
       r.final_score = ((if r.compiles then (1 : Rat) else 0) * r.scoring_weights.compilation
         + r.pattern_score / 10 * r.scoring_weights.pattern_match
         + r.naming_score / 10 * r.scoring_weights.naming) * 10)
    ∧ (∀ (fx : AgentRunner.Fixture) (env : AgentRunner.Env) (n : Nat)
       (r : AgentRunner.AgentBenchmarkResult),
       (AgentRunner.run fx env n).1 = .ok r →
       r.final_score = ((if r.compiles then (1 : Rat) else 0) * r.scoring_weights.compilation
         + r.pattern_score / 10 * r.scoring_weights.pattern_match
         + r.naming_score / 10 * r.scoring_weights.naming) * 10)
    ∧ (RefactoringRunner.run scoreFx scoreEnvA 1).1.map
        RefactoringRunner.BenchmarkResult.final_score = Except.ok (8.4 : Rat)
    ∧ (RefactoringRunner.run scoreFx scoreEnvB 1).1.map
        RefactoringRunner.BenchmarkResult.final_score = Except.ok (5 : Rat) := by
  refine ⟨?_, ?_, ?_, ?_, ?_⟩
  · intro fx env n r h
    obtain ⟨chat, comp, ast, naming, ts⟩ := env
    cases chat with
    | error e => exact Except.noConfusion h
    | ok c =>
      cases comp with
      | error e => exact Except.noConfusion h
      | ok k =>
        cases ast <;> cases naming <;>
          (simp only [RefactoringRunner.run, Except.ok.injEq] at h; subst h; ring)
  · intro fx env n r h
    obtain ⟨chat, comp, ast, naming, ts⟩ := env
    cases chat with
    | error e => exact Except.noConfusion h
    | ok c =>
      cases comp with
      | error e => exact Except.noConfusion h
      | ok k =>
        cases ast <;> cases naming <;>
          (simp only [CreationRunner.run, Except.ok.injEq] at h; subst h; ring)
  · intro fx env n r h
    obtain ⟨agent, readT, comp, ast, naming, ts⟩ := env
    cases agent with
    | error e => exact Except.noConfusion h
    | ok ag =>
      cases comp with
      | error e => cases readT <;> exact Except.noConfusion h
      | ok k =>
        cases readT <;> cases ast <;> cases naming <;>
          (simp only [AgentRunner.run, Except.ok.injEq] at h; subst h; ring)
  · simp only [RefactoringRunner.run, scoreFx, scoreEnvA, exampleWeights, Except.map]
    norm_num
  · simp only [RefactoringRunner.run, scoreFx, scoreEnvB, exampleWeights, Except.map]
    norm_num

def c2Fx : RefactoringRunner.Fixture := ⟨"m", "f", "original", ⟨1, 1, 1⟩⟩

def c2Env : RefactoringRunner.Env :=
  ⟨.ok ⟨"code", 30, 5⟩, .ok ⟨true, [], []⟩, .ok ⟨6, []⟩, .ok ⟨1, []⟩, "t"⟩

/-- The result `RefactoringTest.run` produces for `c2Fx`/`c2Env`, spelled
with the same score expressions the runner builds. -/
def c2Res : RefactoringRunner.BenchmarkResult :=
  { model := "m", fixture := "f", timestamp := "t", run_number := 1,
    compiles := true, compilation_errors := [], compilation_warnings := [],
    pattern_score := 6, ast_missing := [], naming_score := (1 : Rat) * 10,
    naming_violations := [],
    final_score := ((if true then (1 : Rat) else 0) * 1 + (6 : Rat) / 10 * 1
      + (1 : Rat) * 1) * 10,
    scoring_weights := ⟨1, 1, 1⟩, tokens_per_sec := 30, duration_sec := 5,
    output_code := "code", errors := [] }

/-- C2 witness: a concrete run returning `c2Res`, whose final score obeys
the formula. -/
theorem final_score_weighted_formula_witness :
    (RefactoringRunner.run c2Fx c2Env 1).1 = Except.ok c2Res
    ∧ c2Res.final_score
      = ((if c2Res.compiles then (1 : Rat) else 0) * c2Res.scoring_weights.compilation
        + c2Res.pattern_score / 10 * c2Res.scoring_weights.pattern_match
        + c2Res.naming_score / 10 * c2Res.scoring_weights.naming) * 10 :=
  ⟨rfl, final_score_weighted_formula.1 c2Fx c2Env 1 c2Res rfl⟩

/-! ## C3 — validator exceptions degrade, never abort -/

/-- C3: whenever the structural validator or the naming validator raises
during a run that reached the validation stage, the orchestrator returns a
fully formed result: the corresponding sub-score is 0 and the errors list
contains a message describing the validator failure (so it is non-empty);
the exception is never propagated.  Stated for the
refactoring and creation orchestrators, for each of the two validators. -/
theorem validator_exception_yields_degraded_result :
    (∀ (fx : RefactoringRunner.Fixture) (env : RefactoringRunner.Env) (n : Nat)
       (c : ChatOut) (k : CompData) (m : String),
       env.chat = .ok c → env.comp = .ok k → env.ast = .error m →
       ∃ r, (RefactoringRunner.run fx env n).1 = .ok r
         ∧ r.pattern_score = 0 ∧ ("AST validation error: " ++ m) ∈ r.errors)
    ∧ (∀ (fx : RefactoringRunner.Fixture) (env : RefactoringRunner.Env) (n : Nat)
       (c : ChatOut) (k : CompData) (m : String),
       env.chat = .ok c → env.comp = .ok k → env.naming = .error m →
       ∃ r, (RefactoringRunner.run fx env n).1 = .ok r
         ∧ r.naming_score = 0 ∧ ("Naming validation error: " ++ m) ∈ r.errors)
    ∧ (∀ (fx : CreationRunner.Fixture) (env : CreationRunner.Env) (n : Nat)
       (c : ChatOut) (k : CompData) (m : String),
       env.chat = .ok c → env.comp = .ok k → env.ast = .error m →
       ∃ r, (CreationRunner.run fx env n).1 = .ok r
         ∧ r.pattern_score = 0 ∧ ("AST validation error: " ++ m) ∈ r.errors)
    ∧ (∀ (fx : CreationRunner.Fixture) (env : CreationRunner.Env) (n : Nat)
       (c : ChatOut) (k : CompData) (m : String),
       env.chat = .ok c → env.comp = .ok k → env.naming = .error m →
       ∃ r, (CreationRunner.run fx env n).1 = .ok r
         ∧ r.naming_score = 0 ∧ ("Naming validation error: " ++ m) ∈ r.errors) := by
  refine ⟨?_, ?_, ?_, ?_⟩
  · intro fx env n c k m h1 h2 h3
    obtain ⟨chat, comp, ast, naming, ts⟩ := env
    subst h1; subst h2; subst h3
    cases naming <;> exact ⟨_, rfl, rfl, by simp⟩
  · intro fx env n c k m h1 h2 h3
    obtain ⟨chat, comp, ast, naming, ts⟩ := env
    subst h1; subst h2; subst h3
    cases ast <;> exact ⟨_, rfl, by norm_num, by simp⟩
  · intro fx env n c k m h1 h2 h3
    obtain ⟨chat, comp, ast, naming, ts⟩ := env
    subst h1; subst h2; subst h3
    cases naming <;> exact ⟨_, rfl, rfl, by simp⟩
  · intro fx env n c k m h1 h2 h3
    obtain ⟨chat, comp, ast, naming, ts⟩ := env
    subst h1; subst h2; subst h3
    cases ast <;> exact ⟨_, rfl, by norm_num, by simp⟩

def c3Env : RefactoringRunner.Env :=
  ⟨.ok ⟨"code", 30, 5⟩, .ok ⟨true, [], []⟩, .error "AST parser crashed",
    .ok ⟨1, []⟩, "t"⟩

/-- C3 witness: a concrete run whose structural validator raised. -/
theorem validator_exception_degraded_witness :
    ∃ r, (RefactoringRunner.run c2Fx c3Env 1).1 = .ok r
      ∧ r.pattern_score = 0
      ∧ ("AST validation error: " ++ "AST parser crashed") ∈ r.errors :=
  validator_exception_yields_degraded_result.1 c2Fx c3Env 1
    ⟨"code", 30, 5⟩ ⟨true, [], []⟩ "AST parser crashed" rfl rfl rfl

/-! ## C4 — empty-input short-circuit of the structural validators -/

/-- C4 counterexample: the AST-based strategy does NOT short-circuit on
empty input — `validate_ast_structure("")` of src/validator.py writes the
empty code to a temp file and invokes the node parser (the invocation
trace is non-empty), contradicting the claim that no external process is
invoked for empty or `None` input under both strategies. -/
theorem ast_strategy_invokes_parser_on_empty_input_cex :
    (Validator.validate_ast_structure (some "") [("interfaces", PatVal.strs ["ButtonProps"])]
      (ParserBehavior.ok ⟨false, false, false, false⟩)).2 ≠ [] := by
  decide

/-- C4 amended: only the regex-based strategy (creation family)
short-circuits: for empty or `None` input it returns score 0.0 with
`missing` equal to every requested pattern key and invokes no external
process (indeed it never invokes one); the AST-based strategy
(src/validator.py and the agentic-bugfix copy) invokes the external node
parser on every input, including empty and `None`. -/
theorem empty_input_short_circuits_regex_strategy_only :
    (∀ ep : ExpectedPatterns,
      VeeValidator.validate_ast_structure none ep = (⟨0, patKeys ep, []⟩, []))
    ∧ (∀ ep : ExpectedPatterns,
      VeeValidator.validate_ast_structure (some "") ep = (⟨0, patKeys ep, []⟩, []))
    ∧ (∀ (code : Option String) (ep : ExpectedPatterns),
      (VeeValidator.validate_ast_structure code ep).2 = [])
    ∧ (∀ (code : Option String) (ep : ExpectedPatterns) (parser : ParserBehavior),
      (Validator.validate_ast_structure code ep parser).2 = ["node"])
    ∧ (∀ (code : Option String) (ep : ExpectedPatterns) (parser : ParserBehavior),
      (BugfixValidator.validate_ast_structure code ep parser).2 = ["node"]) := by
  refine ⟨?_, ?_, ?_, ?_, ?_⟩
  · intro ep
    rfl
  · intro ep
    rfl
  · intro code ep
    cases code with
    | none => rfl
    | some s =>
      by_cases hs : s = ""
      · simp [VeeValidator.validate_ast_structure, hs]
      · simp [VeeValidator.validate_ast_structure, hs]
  · intro code ep parser
    cases parser <;> rfl
  · intro code ep parser
    cases parser <;> rfl

/-! ## C7 — binary naming scores -/

/-- C7: every naming-validator variant returns a score that is exactly 1.0
or exactly 0.0: with zero matched declarations the score is 1.0, and with
at least one declaration violating the configured conventions the score
is 0.0.  Stated for the interface variant (src/validator.py), the
suffix-list interface variant (typed_emits_composable) and the variable
variant (creation). -/
theorem naming_score_binary :
    (∀ (code : String) (conv : Validator.NamingConventions),
      (Validator.validate_naming code conv).score = 0
      ∨ (Validator.validate_naming code conv).score = 1)
    ∧ (∀ (code : String) (conv : Validator.NamingConventions),
      findInterfaces code = [] → (Validator.validate_naming code conv).score = 1)
    ∧ (∀ (code : String) (conv : Validator.NamingConventions) (name : String),
      name ∈ findInterfaces code → Validator.interfaceViolations conv name ≠ [] →
      (Validator.validate_naming code conv).score = 0)
    ∧ (∀ (code : String) (conv : TypedEmitsValidator.NamingConventions),
      (TypedEmitsValidator.validate_naming code conv).score = 0
      ∨ (TypedEmitsValidator.validate_naming code conv).score = 1)
    ∧ (∀ (code : String) (conv : TypedEmitsValidator.NamingConventions),
      findInterfaces code = [] → (TypedEmitsValidator.validate_naming code conv).score = 1)
    ∧ (∀ (code : String) (conv : TypedEmitsValidator.NamingConventions) (name : String),
      name ∈ findInterfaces code → TypedEmitsValidator.interfaceViolations conv name ≠ [] →
      (TypedEmitsValidator.validate_naming code conv).score = 0)
    ∧ (∀ (code : String) (conv : VeeValidator.VarConventions),
      (VeeValidator.validate_naming code conv).score = 0
      ∨ (VeeValidator.validate_naming code conv).score = 1)
    ∧ (∀ (code : String) (conv : VeeValidator.VarConventions),
      findVars code = [] → (VeeValidator.validate_naming code conv).score = 1)
    ∧ (∀ (code : String) (v : String) (name : String),
      v ≠ "" → name ∈ findVars code → VeeValidator.varViolation name ≠ [] →
      (VeeValidator.validate_naming code ⟨some v⟩).score = 0) := by
  refine ⟨?_, ?_, ?_, ?_, ?_, ?_, ?_, ?_, ?_⟩
  · intro code conv
    simp only [Validator.validate_naming]
    by_cases h : findInterfaces code = []
    · simp [h]
    · simp only [if_neg h]
      by_cases hv : ((findInterfaces code).flatMap (Validator.interfaceViolations conv)) = []
      · simp [hv]
      · simp [hv, List.isEmpty_iff]
  · intro code conv h
    simp [Validator.validate_naming, h]
  · intro code conv name hmem hviol
    have hne : findInterfaces code ≠ [] := List.ne_nil_of_mem hmem
    have hv : (findInterfaces code).flatMap (Validator.interfaceViolations conv) ≠ [] := by
      intro hnil
      rw [List.flatMap_eq_nil_iff] at hnil
      exact hviol (hnil name hmem)
    simp [Validator.validate_naming, hne, hv, List.isEmpty_iff]
  · intro code conv
    simp only [TypedEmitsValidator.validate_naming]
    by_cases h : findInterfaces code = []
    · simp [h]
    · simp only [if_neg h]
      by_cases hv : ((findInterfaces code).flatMap (TypedEmitsValidator.interfaceViolations conv)) = []
      · simp [hv]
      · simp [hv, List.isEmpty_iff]
  · intro code conv h
    simp [TypedEmitsValidator.validate_naming, h]
  · intro code conv name hmem hviol
    have hne : findInterfaces code ≠ [] := List.ne_nil_of_mem hmem
    have hv : (findInterfaces code).flatMap (TypedEmitsValidator.interfaceViolations conv) ≠ [] := by
      intro hnil
      rw [List.flatMap_eq_nil_iff] at hnil
      exact hviol (hnil name hmem)
    simp [TypedEmitsValidator.validate_naming, hne, hv, List.isEmpty_iff]
  · intro code conv
    obtain ⟨vf⟩ := conv
    cases vf with
    | none => simp [VeeValidator.validate_naming]
    | some v =>
      simp only [VeeValidator.validate_naming]
      by_cases hv : v = ""
      · simp [hv]
      · simp only [if_neg hv]
        by_cases h : findVars code = []
        · simp [h]
        · simp only [if_neg h]
          by_cases hflat : (findVars code).flatMap VeeValidator.varViolation = []
          · simp [hflat]
          · simp [hflat, List.isEmpty_iff]
  · intro code conv h
    obtain ⟨vf⟩ := conv
    cases vf with
    | none => simp [VeeValidator.validate_naming]
    | some v =>
      simp only [VeeValidator.validate_naming]
      by_cases hv : v = ""
      · simp [hv]
      · simp [hv, h]
  · intro code v name hv hmem hviol
    have hne : findVars code ≠ [] := List.ne_nil_of_mem hmem
    have hflat : (findVars code).flatMap VeeValidator.varViolation ≠ [] := by
      intro hnil
      rw [List.flatMap_eq_nil_iff] at hnil
      exact hviol (hnil name hmem)
    simp [VeeValidator.validate_naming, hv, hne, hflat, List.isEmpty_iff]

/-- C7 witness: concrete codes exercising trivial pass, an interface
violation, a suffix-list violation and a variable violation. -/
theorem naming_score_binary_witness :
    ((Validator.validate_naming "no declarations here"
        ⟨some "PascalCase", some "Props"⟩).score = 1)
    ∧ ((Validator.validate_naming "interface fooProps x"
        ⟨some "PascalCase", some "Props"⟩).score = 0)
    ∧ ((TypedEmitsValidator.validate_naming "interface UserData x"
        ⟨some "PascalCase", some ["Props", "Emits"], none⟩).score = 0)
    ∧ ((VeeValidator.validate_naming "no declarations here" ⟨some "camelCase"⟩).score = 1)
    ∧ ((VeeValidator.validate_naming "const Xbad = 1" ⟨some "camelCase"⟩).score = 0) :=
  ⟨naming_score_binary.2.1 "no declarations here" ⟨some "PascalCase", some "Props"⟩
      (by decide),
    naming_score_binary.2.2.1 "interface fooProps x" ⟨some "PascalCase", some "Props"⟩
      "fooProps" (by decide) (by decide),
    naming_score_binary.2.2.2.2.2.1 "interface UserData x"
      ⟨some "PascalCase", some ["Props", "Emits"], none⟩ "UserData" (by decide) (by decide),
    (naming_score_binary.2.2.2.2.2.2.2.1 "no declarations here" ⟨some "camelCase"⟩
      (by decide)),
    naming_score_binary.2.2.2.2.2.2.2.2 "const Xbad = 1" "camelCase" "Xbad"
      (by decide) (by decide) (by decide)⟩

/-! ## C8 — the agent loop driver degrades gracefully -/

/-- C8: for every exception raised by the agent loop itself inside
`run_agent` (tool errors are strings handed to the model, not
exceptions), `run_agent` still returns an `AgentRunResult` — the
embedding is total on every environment — with `succeeded = false` and
the exception message appended to the errors list. -/
theorem run_agent_catches_loop_exception :
    ∀ (env : AgentClient.AgentEnv) (msg : String),
      env.loopOutcome = .error msg →
      (AgentClient.run_agent env).succeeded = false
      ∧ ("Agent run error: " ++ msg) ∈ (AgentClient.run_agent env).errors := by
  intro env msg h
  obtain ⟨lo, steps, me, d⟩ := env
  cases lo with
  | ok r => exact Except.noConfusion h
  | error e =>
    have he : e = msg := by
      injection h
    subst he
    refine ⟨rfl, ?_⟩
    show ("Agent run error: " ++ e) ∈ ["Agent run error: " ++ e] ++ _
    exact List.mem_append_left _ (List.mem_cons_self _ _)

def c8Env : AgentClient.AgentEnv :=
  ⟨.error "loop crashed", [⟨[("read_file", "path")], "obs"⟩], none, 5⟩

/-- C8 witness: a concrete environment whose loop raised. -/
theorem run_agent_catches_loop_exception_witness :
    (AgentClient.run_agent c8Env).succeeded = false
    ∧ ("Agent run error: " ++ "loop crashed") ∈ (AgentClient.run_agent c8Env).errors :=
  run_agent_catches_loop_exception c8Env "loop crashed" rfl

/-! ## C9 — the steps/iterations seam between AgentTest.run and run_agent -/

/-- C9: the intent (confirmed by the unit tests of the runner) is that
`iterations` counts `run_compilation` occurrences in the trace while
`steps` counts LLM turns; but the two modules do not fit together:
`AgentTest.run` passes the keyword `max_steps`, which `run_agent` does not
declare (it declares `max_iterations`), and reads a `steps` attribute that
the real `AgentRunResult` does not define (it calls that count
`iterations`).  The composed code therefore raises a TypeError on every
real agentic run instead of returning the described result. -/
theorem agent_seam_keyword_and_field_mismatch :
    "max_steps" ∈ AgentClient.agentTestRunCallKeywords
    ∧ "max_steps" ∉ AgentClient.runAgentParamNames
    ∧ "steps" ∈ AgentClient.agentTestRunAccessedFields
    ∧ "steps" ∉ AgentClient.agentRunResultFieldNames := by
  decide

/-! ## C10 — the inference client never returns a failed ChatResult -/

/-- C10: `chat` either raises (one of the classified errors, the `Except`
error case) or returns a `ChatResult` with `success = true` and
`error = none` — the failure fields of a returned record are never
populated, for every model, prompt and backend behaviour. -/
theorem chat_never_returns_failed_result :
    ∀ (modelName baseUrl : String) (timeout : Nat)
      (backend : Except String OllamaClient.BackendResponse)
      (r : OllamaClient.ChatResult),
      OllamaClient.chat modelName baseUrl timeout backend = .ok r →
      r.success = true ∧ r.error = none := by
  intro mn b t backend r h
  cases backend with
  | ok resp =>
    simp only [OllamaClient.chat, Except.ok.injEq] at h
    subst h
    exact ⟨rfl, rfl⟩
  | error e =>
    simp only [OllamaClient.chat] at h
    split_ifs at h

def c10dur : Rat :=
  if (2000000000 : Nat) ≠ 0 then ((2000000000 : Nat) : Rat) / 1000000000 else 0

def c10tps : Rat := if 0 < c10dur then ((100 : Nat) : Rat) / c10dur else 0

def c10Res : OllamaClient.ChatResult := ⟨"hello", c10dur, 100, c10tps, true, none⟩

/-- C10 witness: a concrete successful backend call. -/
theorem chat_never_returns_failed_result_witness :
    OllamaClient.chat "qwen2.5-coder:7b" "http://localhost:11434" 30
      (.ok ⟨"hello", 2000000000, 100⟩) = .ok c10Res
    ∧ c10Res.success = true ∧ c10Res.error = none :=
  ⟨rfl, chat_never_returns_failed_result "qwen2.5-coder:7b" "http://localhost:11434" 30
    (.ok ⟨"hello", 2000000000, 100⟩) c10Res rfl⟩

end LLMBench
